import Mathlib

/-!
Verification of the face-identity enrollment and verification core of
Image_recognition_onnx_project (src/server.js).

Modelling conventions:
* JavaScript numbers are modelled as real numbers; the two sentinel values
  Infinity and -Infinity, used only as the initial accumulators of min/max
  loops, are modelled by the top of WithTop and the bottom of WithBot.
* Embeddings are lists of reals.  The opaque ONNX model together with the
  opaque image decode/crop/resize primitives is abstracted as a function
  from an image and a crop region to a raw embedding; all logic downstream
  of that boundary is translated directly from the source.
* The JavaScript truthiness test on a name (undefined or empty string) is
  modelled on Option String via getD.
-/

open Classical

set_option maxHeartbeats 1000000

noncomputable section

/-- sumSq v is the sum of the squares of the entries of v; its square root
is the Euclidean norm computed at the top of normalizeEmbedding in
src/server.js. -/
def sumSq (v : List ℝ) : ℝ :=
  (v.map fun x => x * x).sum

/-- The Euclidean norm of an embedding, as computed inside
normalizeEmbedding: the square root of the sum of squared entries. -/
def vnorm (v : List ℝ) : ℝ :=
  Real.sqrt (sumSq v)

/-- normalizeEmbedding from src/server.js: divide each entry by the norm,
returning the vector unchanged when the norm is zero (over the reals the
JavaScript guard for a non-finite norm is vacuous, so the guard reduces to
the zero test). -/
def normalizeEmbedding (v : List ℝ) : List ℝ :=
  if vnorm v = 0 then v else v.map fun x => x / vnorm v

/-- The sum of squared coordinate differences accumulated by the loop of
euclideanDistance in src/server.js.  The loop runs over the indices of the
first argument; under the system invariant that all embeddings share one
length this is the pointwise zip of the two lists. -/
def diffSq (a b : List ℝ) : ℝ :=
  (List.zipWith (fun x y => (x - y) ^ 2) a b).sum

/-- euclideanDistance from src/server.js. -/
def euclideanDistance (a b : List ℝ) : ℝ :=
  Real.sqrt (diffSq a b)

/-- cosineSimilarity from src/server.js: the plain dot product of the two
lists, with no division by the norms. -/
def cosineSimilarity (a b : List ℝ) : ℝ :=
  (List.zipWith (fun x y => x * y) a b).sum

/-- averageEmbeddings from src/server.js: the element-wise mean, with the
common length read from the first embedding in the collection. -/
def averageEmbeddings (embeddings : List (List ℝ)) : List ℝ :=
  (List.range embeddings.headI.length).map fun i =>
    (embeddings.map fun e => e.getD i 0).sum / embeddings.length

/-- A stored person profile, as built by buildPersonProfile and persisted
by the register endpoint.  minIntraSimilarity starts at Infinity in the
source, hence lives in WithTop. -/
structure PersonProfile where
  embeddings : List (List ℝ)
  centroid : List ℝ
  maxIntraDistance : ℝ
  minIntraSimilarity : WithTop ℝ

/-- buildPersonProfile from src/server.js: normalized centroid of the
average, maximum distance of any embedding to the centroid (accumulated
from 0) and minimum similarity with the centroid (accumulated from
Infinity). -/
def buildPersonProfile (embeddings : List (List ℝ)) : PersonProfile :=
  let centroid := normalizeEmbedding (averageEmbeddings embeddings)
  { embeddings := embeddings
    centroid := centroid
    maxIntraDistance :=
      embeddings.foldl (fun m e => max m (euclideanDistance e centroid)) 0
    minIntraSimilarity :=
      embeddings.foldl (fun m e => min m ↑(cosineSimilarity e centroid)) ⊤ }

/-- The mutable state of the pairwise sweep loop of the find endpoint:
minDistance starts at Infinity, maxSimilarity at -Infinity and the variant
match counter at zero. -/
structure SweepState where
  minDistance : WithTop ℝ
  maxSimilarity : WithBot ℝ
  variantMatches : ℕ

/-- One iteration of the inner loop of the find endpoint on the pair
(saved, query): update the running min and max and count the pair when it
jointly passes both thresholds. -/
def sweepStep (D C : ℝ) (st : SweepState) (p : List ℝ × List ℝ) : SweepState :=
  let d := euclideanDistance p.1 p.2
  let s := cosineSimilarity p.1 p.2
  { minDistance := min st.minDistance ↑d
    maxSimilarity := max st.maxSimilarity ↑s
    variantMatches :=
      if d ≤ D ∧ C ≤ s then st.variantMatches + 1 else st.variantMatches }

/-- The list of (saved, query) pairs visited by the nested loops of the
find endpoint: query variants in the outer loop, stored embeddings in the
inner loop, the saved embedding placed first as in the source calls. -/
def pairList (queryEmbeddings storedEmbeddings : List (List ℝ)) :
    List (List ℝ × List ℝ) :=
  queryEmbeddings.flatMap fun q => storedEmbeddings.map fun s => (s, q)

/-- The full pairwise sweep of the find endpoint. -/
def runSweep (D C : ℝ) (queryEmbeddings storedEmbeddings : List (List ℝ)) :
    SweepState :=
  (pairList queryEmbeddings storedEmbeddings).foldl (sweepStep D C)
    ⟨⊤, ⊥, 0⟩

/-- The match result assembled by the find endpoint. -/
structure MatchReport where
  minDistance : WithTop ℝ
  maxSimilarity : WithBot ℝ
  centroidDistance : ℝ
  centroidSimilarity : ℝ
  variantMatches : ℕ
  isMatch : Prop

/-- The body of the find endpoint after the profile has been loaded and
the query embeddings computed: run the pairwise sweep, compare the stored
centroid against the first query variant only, and gate isMatch on the
sweep values and the variant-match count.  The JavaScript comparison of
the counter against REQUIRED_VARIANT_MATCHES is numeric, so R is a real
and the counter is cast. -/
def matchReport (D C R : ℝ) (queryEmbeddings : List (List ℝ))
    (profile : PersonProfile) : MatchReport :=
  let st := runSweep D C queryEmbeddings profile.embeddings
  { minDistance := st.minDistance
    maxSimilarity := st.maxSimilarity
    centroidDistance := euclideanDistance profile.centroid queryEmbeddings.headI
    centroidSimilarity := cosineSimilarity profile.centroid queryEmbeddings.headI
    variantMatches := st.variantMatches
    isMatch :=
      st.minDistance ≤ (D : WithTop ℝ) ∧
      (C : WithBot ℝ) ≤ st.maxSimilarity ∧
      R ≤ (st.variantMatches : ℝ) }

/-- A crop region handed to the opaque image pipeline: either the full
image resized to the model input size, or a centered square crop of the
given side at the given offsets. -/
inductive Region where
  | full : Region
  | crop (left top side : ℕ) : Region

/-- An input image as seen by the augmentation sampler: only the metadata
dimensions matter to the control flow; pixel content stays behind the
opaque extraction boundary. -/
structure Img where
  width : Option ℕ
  height : Option ℕ

/-- The two centered crop regions computed by getAugmentedEmbeddings for
the ratio sequence 0.92, 0.85: side is the floor of square times the
ratio, offsets are the floored half differences. -/
def cropRegions (w h : ℕ) : List Region :=
  let square := min w h
  [(92 : ℚ) / 100, (85 : ℚ) / 100].map fun r =>
    let side := ⌊(square : ℚ) * r⌋₊
    Region.crop ((w - side) / 2) ((h - side) / 2) side

/-- The ordered list of regions whose embeddings getAugmentedEmbeddings
produces: always the full image first, then the two centered crops when
both metadata dimensions are truthy (present and nonzero). -/
def variantsOf (img : Img) : List Region :=
  Region.full ::
    (if img.width.getD 0 ≠ 0 ∧ img.height.getD 0 ≠ 0 then
      cropRegions (img.width.getD 0) (img.height.getD 0)
    else [])

/-- getAugmentedEmbeddings from src/server.js, with the composition of
crop, resize and the ONNX model abstracted as embedOf: extract a raw
embedding for every region and normalize each one immediately. -/
def getAugmentedEmbeddings (embedOf : Img → Region → List ℝ) (img : Img) :
    List (List ℝ) :=
  (variantsOf img).map fun r => normalizeEmbedding (embedOf img r)

/-- The response of the register endpoint: a 400 validation error or the
success payload. -/
inductive RegisterResult where
  | validationError (msg : String) : RegisterResult
  | registered (samplesStored : ℕ) (maxIntraDistance : ℝ)
      (minIntraSimilarity : WithTop ℝ) : RegisterResult

/-- The samplesStored field of a successful register response. -/
def RegisterResult.samples : RegisterResult → Option ℕ
  | .registered n _ _ => some n
  | _ => none

/-- The register endpoint from src/server.js: reject a missing or empty
name, reject an empty file list, otherwise flatten the augmented
embeddings of all uploaded images, build the profile, store it under the
name and report the number of samples together with the intra statistics.
Returns the response and the updated profile store. -/
def registerEndpoint (embedOf : Img → Region → List ℝ) (name : Option String)
    (files : List Img) (store : String → Option PersonProfile) :
    RegisterResult × (String → Option PersonProfile) :=
  if name.getD "" = "" then (.validationError "Name is required", store)
  else if files.isEmpty then
    (.validationError "At least one image required", store)
  else
    let embeddings := files.flatMap (getAugmentedEmbeddings embedOf)
    let profile := buildPersonProfile embeddings
    (.registered embeddings.length profile.maxIntraDistance
        profile.minIntraSimilarity,
      fun n => if n = name.getD "" then some profile else store n)

/-- The response of the find endpoint: a 400 validation error, the
distinct not-registered outcome carrying no computed fields, or a full
match report. -/
inductive FindOutcome where
  | validationError (msg : String) : FindOutcome
  | notRegistered : FindOutcome
  | found (report : MatchReport) : FindOutcome

/-- The find endpoint from src/server.js: reject a missing or empty name,
reject a missing query image, answer notRegistered when no profile is
stored under the name, and otherwise compute the match report from the
augmented query embeddings and the stored profile. -/
def findEndpoint (embedOf : Img → Region → List ℝ) (D C R : ℝ)
    (name : Option String) (file : Option Img)
    (store : String → Option PersonProfile) : FindOutcome :=
  if name.getD "" = "" then .validationError "Name required"
  else
    match file with
    | none => .validationError "Image required"
    | some img =>
      match store (name.getD "") with
      | none => .notRegistered
      | some profile =>
        .found (matchReport D C R (getAugmentedEmbeddings embedOf img) profile)

end

/-! ### Vector math lemmas -/

lemma sumSq_nil : sumSq [] = 0 := rfl

lemma sumSq_cons (x : ℝ) (t : List ℝ) : sumSq (x :: t) = x * x + sumSq t := by
  simp [sumSq]

lemma sumSq_nonneg (v : List ℝ) : 0 ≤ sumSq v := by
  refine List.sum_nonneg ?_
  intro x hx
  obtain ⟨y, -, rfl⟩ := List.mem_map.mp hx
  exact mul_self_nonneg y

lemma sumSq_eq_zero_iff (v : List ℝ) : sumSq v = 0 ↔ ∀ x ∈ v, x = 0 := by
  induction v with
  | nil => simp [sumSq_nil]
  | cons x t ih =>
    rw [sumSq_cons,
      add_eq_zero_iff_of_nonneg (mul_self_nonneg x) (sumSq_nonneg t)]
    simp [mul_self_eq_zero, ih]

lemma vnorm_eq_zero_iff (v : List ℝ) : vnorm v = 0 ↔ sumSq v = 0 := by
  unfold vnorm
  rw [Real.sqrt_eq_zero']
  exact ⟨fun h => le_antisymm h (sumSq_nonneg v), fun h => h.le⟩

lemma sumSq_map_div (v : List ℝ) (c : ℝ) :
    sumSq (v.map fun x => x / c) = sumSq v / (c * c) := by
  induction v with
  | nil => simp [sumSq_nil]
  | cons x t ih =>
    simp only [List.map_cons, sumSq_cons, ih, div_mul_div_comm, add_div]

lemma vnorm_normalize (v : List ℝ) (h : sumSq v ≠ 0) :
    vnorm (normalizeEmbedding v) = 1 := by
  have hpos : 0 < sumSq v := lt_of_le_of_ne (sumSq_nonneg v) (Ne.symm h)
  have hn : vnorm v ≠ 0 := fun h0 => h ((vnorm_eq_zero_iff v).mp h0)
  rw [normalizeEmbedding, if_neg hn, vnorm, sumSq_map_div]
  have hsq : vnorm v * vnorm v = sumSq v :=
    Real.mul_self_sqrt (sumSq_nonneg v)
  rw [hsq, div_self h, Real.sqrt_one]

lemma normalizeEmbedding_of_vnorm_eq_zero (v : List ℝ) (h : vnorm v = 0) :
    normalizeEmbedding v = v := by
  rw [normalizeEmbedding, if_pos h]

lemma diffSq_cons (x y : ℝ) (t s : List ℝ) :
    diffSq (x :: t) (y :: s) = (x - y) ^ 2 + diffSq t s := by
  simp [diffSq]

lemma diffSq_nonneg (a b : List ℝ) : 0 ≤ diffSq a b := by
  induction a generalizing b with
  | nil => simp [diffSq]
  | cons x t ih =>
    cases b with
    | nil => simp [diffSq]
    | cons y s =>
      rw [diffSq_cons]
      exact add_nonneg (sq_nonneg _) (ih s)

lemma diffSq_self (a : List ℝ) : diffSq a a = 0 := by
  induction a with
  | nil => simp [diffSq]
  | cons x t ih => rw [diffSq_cons, ih]; ring

lemma diffSq_eq_zero_iff (a b : List ℝ) (h : a.length = b.length) :
    diffSq a b = 0 ↔ a = b := by
  induction a generalizing b with
  | nil =>
    cases b with
    | nil => simp [diffSq]
    | cons y s => simp at h
  | cons x t ih =>
    cases b with
    | nil => simp at h
    | cons y s =>
      have hlen : t.length = s.length := by simpa using h
      have hstep : diffSq (x :: t) (y :: s) = (x - y) ^ 2 + diffSq t s := by
        simp [diffSq]
      rw [hstep,
        add_eq_zero_iff_of_nonneg (sq_nonneg (x - y)) (diffSq_nonneg t s)]
      rw [sq_eq_zero_iff, sub_eq_zero, ih s hlen]
      constructor
      · rintro ⟨rfl, rfl⟩; rfl
      · intro hxy; injection hxy with h1 h2; exact ⟨h1, h2⟩

lemma euclideanDistance_nonneg (a b : List ℝ) : 0 ≤ euclideanDistance a b :=
  Real.sqrt_nonneg _

lemma euclideanDistance_self (a : List ℝ) : euclideanDistance a a = 0 := by
  rw [euclideanDistance, diffSq_self, Real.sqrt_zero]

lemma euclideanDistance_eq_zero_iff (a b : List ℝ) (h : a.length = b.length) :
    euclideanDistance a b = 0 ↔ a = b := by
  rw [euclideanDistance, Real.sqrt_eq_zero',
    ← diffSq_eq_zero_iff a b h]
  exact ⟨fun hle => le_antisymm hle (diffSq_nonneg a b), fun he => he.le⟩

lemma euclideanDistance_pos_of_ne (a b : List ℝ) (h : a.length = b.length)
    (hne : a ≠ b) : 0 < euclideanDistance a b :=
  lt_of_le_of_ne (euclideanDistance_nonneg a b)
    (fun h0 => hne ((euclideanDistance_eq_zero_iff a b h).mp h0.symm))

lemma cosineSimilarity_cons (x y : ℝ) (t s : List ℝ) :
    cosineSimilarity (x :: t) (y :: s) = x * y + cosineSimilarity t s := by
  simp [cosineSimilarity]

lemma cosineSimilarity_self (v : List ℝ) : cosineSimilarity v v = sumSq v := by
  induction v with
  | nil => simp [cosineSimilarity, sumSq]
  | cons x t ih => rw [cosineSimilarity_cons, ih, sumSq_cons]

/-! ### Generic lemmas about running-min and running-max folds -/

lemma foldl_min_le_init {α β : Type} [LinearOrder β] (f : α → β) :
    ∀ (l : List α) (a : β), l.foldl (fun m x => min m (f x)) a ≤ a := by
  intro l
  induction l with
  | nil => intro a; exact le_refl a
  | cons y t ih =>
    intro a
    calc t.foldl (fun m x => min m (f x)) (min a (f y)) ≤ min a (f y) := ih _
      _ ≤ a := min_le_left _ _

lemma foldl_min_le_mem {α β : Type} [LinearOrder β] (f : α → β) :
    ∀ (l : List α) (a : β) (x : α), x ∈ l →
      l.foldl (fun m x => min m (f x)) a ≤ f x := by
  intro l
  induction l with
  | nil => intro a x hx; exact absurd hx (List.not_mem_nil x)
  | cons y t ih =>
    intro a x hx
    rcases List.mem_cons.mp hx with rfl | hxt
    · calc t.foldl (fun m z => min m (f z)) (min a (f x)) ≤ min a (f x) :=
          foldl_min_le_init f t _
        _ ≤ f x := min_le_right _ _
    · exact ih _ x hxt

lemma foldl_min_attained {α β : Type} [LinearOrder β] (f : α → β) :
    ∀ (l : List α) (a : β),
      l.foldl (fun m x => min m (f x)) a = a ∨
        ∃ x ∈ l, l.foldl (fun m x => min m (f x)) a = f x := by
  intro l
  induction l with
  | nil => intro a; exact Or.inl rfl
  | cons y t ih =>
    intro a
    rcases ih (min a (f y)) with h | ⟨x, hx, h⟩
    · rcases min_choice a (f y) with hm | hm
      · exact Or.inl (by rw [List.foldl_cons, h, hm])
      · exact Or.inr ⟨y, List.mem_cons_self y t, by rw [List.foldl_cons, h, hm]⟩
    · exact Or.inr ⟨x, List.mem_cons_of_mem y hx, by rw [List.foldl_cons, h]⟩

lemma le_foldl_max {α β : Type} [LinearOrder β] (f : α → β) :
    ∀ (l : List α) (a : β), a ≤ l.foldl (fun m x => max m (f x)) a := by
  intro l
  induction l with
  | nil => intro a; exact le_refl a
  | cons y t ih =>
    intro a
    calc a ≤ max a (f y) := le_max_left _ _
      _ ≤ t.foldl (fun m x => max m (f x)) (max a (f y)) := ih _

lemma mem_le_foldl_max {α β : Type} [LinearOrder β] (f : α → β) :
    ∀ (l : List α) (a : β) (x : α), x ∈ l →
      f x ≤ l.foldl (fun m x => max m (f x)) a := by
  intro l
  induction l with
  | nil => intro a x hx; exact absurd hx (List.not_mem_nil x)
  | cons y t ih =>
    intro a x hx
    rcases List.mem_cons.mp hx with rfl | hxt
    · calc f x ≤ max a (f x) := le_max_right _ _
        _ ≤ t.foldl (fun m z => max m (f z)) (max a (f x)) := le_foldl_max f t _
    · exact ih _ x hxt

lemma foldl_max_attained {α β : Type} [LinearOrder β] (f : α → β) :
    ∀ (l : List α) (a : β),
      l.foldl (fun m x => max m (f x)) a = a ∨
        ∃ x ∈ l, l.foldl (fun m x => max m (f x)) a = f x := by
  intro l
  induction l with
  | nil => intro a; exact Or.inl rfl
  | cons y t ih =>
    intro a
    rcases ih (max a (f y)) with h | ⟨x, hx, h⟩
    · rcases max_choice a (f y) with hm | hm
      · exact Or.inl (by rw [List.foldl_cons, h, hm])
      · exact Or.inr ⟨y, List.mem_cons_self y t, by rw [List.foldl_cons, h, hm]⟩
    · exact Or.inr ⟨x, List.mem_cons_of_mem y hx, by rw [List.foldl_cons, h]⟩

/-! ### Decomposition of the pairwise sweep -/

lemma foldl_sweepStep_minDistance (D C : ℝ) :
    ∀ (l : List (List ℝ × List ℝ)) (st : SweepState),
      (l.foldl (sweepStep D C) st).minDistance =
        l.foldl (fun m p => min m ↑(euclideanDistance p.1 p.2)) st.minDistance := by
  intro l
  induction l with
  | nil => intro st; rfl
  | cons p t ih =>
    intro st
    rw [List.foldl_cons, List.foldl_cons, ih]
    rfl

lemma foldl_sweepStep_maxSimilarity (D C : ℝ) :
    ∀ (l : List (List ℝ × List ℝ)) (st : SweepState),
      (l.foldl (sweepStep D C) st).maxSimilarity =
        l.foldl (fun m p => max m ↑(cosineSimilarity p.1 p.2)) st.maxSimilarity := by
  intro l
  induction l with
  | nil => intro st; rfl
  | cons p t ih =>
    intro st
    rw [List.foldl_cons, List.foldl_cons, ih]
    rfl

lemma foldl_sweepStep_variantMatches (D C : ℝ) :
    ∀ (l : List (List ℝ × List ℝ)) (st : SweepState),
      (l.foldl (sweepStep D C) st).variantMatches =
        st.variantMatches +
          (l.map fun p =>
            if euclideanDistance p.1 p.2 ≤ D ∧ C ≤ cosineSimilarity p.1 p.2
            then 1 else 0).sum := by
  intro l
  induction l with
  | nil => intro st; simp
  | cons p t ih =>
    intro st
    rw [List.foldl_cons, ih, List.map_cons, List.sum_cons]
    show (sweepStep D C st p).variantMatches + _ = _
    by_cases h :
        euclideanDistance p.1 p.2 ≤ D ∧ C ≤ cosineSimilarity p.1 p.2
    · simp only [sweepStep, if_pos h]
      omega
    · simp only [sweepStep, if_neg h]
      omega

lemma mem_pairList {p : List ℝ × List ℝ} {q s : List (List ℝ)} :
    p ∈ pairList q s ↔ p.2 ∈ q ∧ p.1 ∈ s := by
  simp only [pairList, List.mem_flatMap, List.mem_map]
  constructor
  · rintro ⟨a, ha, b, hb, rfl⟩
    exact ⟨ha, hb⟩
  · rintro ⟨h2, h1⟩
    exact ⟨p.2, h2, p.1, h1, rfl⟩

lemma runSweep_minDistance (D C : ℝ) (q s : List (List ℝ)) :
    (runSweep D C q s).minDistance =
      (pairList q s).foldl
        (fun m p => min m ↑(euclideanDistance p.1 p.2)) ⊤ := by
  rw [runSweep, foldl_sweepStep_minDistance]

lemma runSweep_maxSimilarity (D C : ℝ) (q s : List (List ℝ)) :
    (runSweep D C q s).maxSimilarity =
      (pairList q s).foldl
        (fun m p => max m ↑(cosineSimilarity p.1 p.2)) ⊥ := by
  rw [runSweep, foldl_sweepStep_maxSimilarity]

lemma runSweep_variantMatches (D C : ℝ) (q s : List (List ℝ)) :
    (runSweep D C q s).variantMatches =
      ((pairList q s).map fun p =>
        if euclideanDistance p.1 p.2 ≤ D ∧ C ≤ cosineSimilarity p.1 p.2
        then 1 else 0).sum := by
  rw [runSweep, foldl_sweepStep_variantMatches]
  exact Nat.zero_add _

/-! ### Averaging and normalizing helpers -/

lemma headI_replicate (n : ℕ) (hn : n ≠ 0) (e : List ℝ) :
    (List.replicate n e).headI = e := by
  cases n with
  | zero => exact absurd rfl hn
  | succ m => rfl

lemma map_getD_range (l : List ℝ) :
    (List.range l.length).map (fun i => l.getD i 0) = l := by
  induction l with
  | nil => rfl
  | cons x t ih =>
    simp only [List.length_cons, List.range_succ_eq_map, List.map_cons,
      List.map_map, Function.comp_def, Nat.succ_eq_add_one,
      List.getD_cons_zero, List.getD_cons_succ]
    rw [ih]

lemma averageEmbeddings_replicate (n : ℕ) (hn : n ≠ 0) (e : List ℝ) :
    averageEmbeddings (List.replicate n e) = e := by
  unfold averageEmbeddings
  rw [headI_replicate n hn]
  have hsum : ∀ i : ℕ,
      ((List.replicate n e).map fun v => v.getD i 0).sum = n * e.getD i 0 := by
    intro i
    rw [List.map_replicate, List.sum_replicate, nsmul_eq_mul]
  have hcast : (n : ℝ) ≠ 0 := Nat.cast_ne_zero.mpr hn
  have hmap : ∀ i ∈ List.range e.length,
      ((List.replicate n e).map fun v => v.getD i 0).sum /
          ((List.replicate n e).length : ℝ) = e.getD i 0 := by
    intro i _
    rw [hsum, List.length_replicate]
    exact mul_div_cancel_left₀ _ hcast
  rw [List.map_congr_left hmap, map_getD_range]

lemma normalizeEmbedding_of_sumSq_one (e : List ℝ) (h : sumSq e = 1) :
    normalizeEmbedding e = e := by
  have hv : vnorm e = 1 := by rw [vnorm, h, Real.sqrt_one]
  rw [normalizeEmbedding, if_neg (by rw [hv]; exact one_ne_zero), hv]
  simp

lemma cosineSimilarity_eq_sum (a b : List ℝ) (h : a.length = b.length) :
    cosineSimilarity a b =
      ∑ i ∈ Finset.range a.length, a.getD i 0 * b.getD i 0 := by
  induction a generalizing b with
  | nil => simp [cosineSimilarity]
  | cons x t ih =>
    cases b with
    | nil => simp at h
    | cons y s =>
      have hlen : t.length = s.length := by simpa using h
      rw [cosineSimilarity_cons, List.length_cons, Finset.sum_range_succ']
      simp only [List.getD_cons_zero, List.getD_cons_succ]
      rw [← ih s hlen]
      exact add_comm _ _

/-! ### Claims C4 and C5: the vector math primitives -/

/-- Claim C4: normalizeEmbedding divides by the Euclidean norm, so the
result of normalizing any vector with a nonzero entry has norm exactly one
in the real model, and a vector of zero norm (in particular the zero
vector) is returned unchanged.  The non-finite branch of the JavaScript
guard is vacuous over the reals. -/
theorem normalize_unit_norm_or_unchanged :
    (∀ v : List ℝ, (∃ x ∈ v, x ≠ 0) → vnorm (normalizeEmbedding v) = 1) ∧
    (∀ v : List ℝ, (∀ x ∈ v, x = 0) → normalizeEmbedding v = v) := by
  constructor
  · intro v hv
    apply vnorm_normalize
    intro h0
    obtain ⟨x, hx, hxne⟩ := hv
    exact hxne ((sumSq_eq_zero_iff v).mp h0 x hx)
  · intro v hv
    apply normalizeEmbedding_of_vnorm_eq_zero
    rw [vnorm_eq_zero_iff]
    exact (sumSq_eq_zero_iff v).mpr hv

/-- Witness for C4 at the concrete vectors [1] and [0]. -/
theorem normalize_unit_norm_or_unchanged_witness :
    vnorm (normalizeEmbedding [(1 : ℝ)]) = 1 ∧
      normalizeEmbedding [(0 : ℝ)] = [0] :=
  ⟨normalize_unit_norm_or_unchanged.1 [1] ⟨1, by simp, by simp⟩,
    normalize_unit_norm_or_unchanged.2 [0] (by simp)⟩

/-- Claim C5: cosineSimilarity is the plain dot product, with no division
by the norms, and on a unit-normalized vector its self-similarity is
exactly one. -/
theorem cosineSimilarity_plain_dot_product :
    (∀ a b : List ℝ, a.length = b.length →
      cosineSimilarity a b =
        ∑ i ∈ Finset.range a.length, a.getD i 0 * b.getD i 0) ∧
    (∀ v : List ℝ, sumSq v = 1 → cosineSimilarity v v = 1) := by
  constructor
  · exact cosineSimilarity_eq_sum
  · intro v hv
    rw [cosineSimilarity_self, hv]

/-- Witness for C5 at the concrete vectors [1, 0] and [0, 1]. -/
theorem cosineSimilarity_plain_dot_product_witness :
    cosineSimilarity [(1 : ℝ), 0] [0, 1] =
        ∑ i ∈ Finset.range 2, [(1 : ℝ), 0].getD i 0 * [(0 : ℝ), 1].getD i 0 ∧
      cosineSimilarity [(1 : ℝ)] [1] = 1 :=
  ⟨cosineSimilarity_plain_dot_product.1 [1, 0] [0, 1] rfl,
    cosineSimilarity_plain_dot_product.2 [1] (by simp [sumSq])⟩

/-! ### Claim C3: the profile builder -/

lemma buildPersonProfile_centroid (embs : List (List ℝ)) :
    (buildPersonProfile embs).centroid =
      normalizeEmbedding (averageEmbeddings embs) := rfl

lemma buildPersonProfile_maxIntraDistance (embs : List (List ℝ)) :
    (buildPersonProfile embs).maxIntraDistance =
      embs.foldl
        (fun m e => max m (euclideanDistance e (buildPersonProfile embs).centroid))
        0 := rfl

lemma buildPersonProfile_minIntraSimilarity (embs : List (List ℝ)) :
    (buildPersonProfile embs).minIntraSimilarity =
      embs.foldl
        (fun m e => min m ↑(cosineSimilarity e (buildPersonProfile embs).centroid))
        ⊤ := rfl

/-- Claim C3: on a non-empty collection the profile builder returns the
normalized average as centroid, the maximum Euclidean distance of any
input embedding to the centroid as maxIntraDistance (an attained upper
bound), and the minimum cosine similarity with the centroid as
minIntraSimilarity (an attained lower bound); and over n identical
unit-normalized embeddings it yields maxIntraDistance zero and
minIntraSimilarity one. -/
theorem buildPersonProfile_centroid_and_dispersion :
    (∀ embs : List (List ℝ), embs ≠ [] →
      (buildPersonProfile embs).centroid =
          normalizeEmbedding (averageEmbeddings embs) ∧
      (∀ e ∈ embs,
        euclideanDistance e (buildPersonProfile embs).centroid ≤
          (buildPersonProfile embs).maxIntraDistance) ∧
      (∃ e ∈ embs,
        (buildPersonProfile embs).maxIntraDistance =
          euclideanDistance e (buildPersonProfile embs).centroid) ∧
      (∀ e ∈ embs,
        (buildPersonProfile embs).minIntraSimilarity ≤
          ↑(cosineSimilarity e (buildPersonProfile embs).centroid)) ∧
      (∃ e ∈ embs,
        (buildPersonProfile embs).minIntraSimilarity =
          ↑(cosineSimilarity e (buildPersonProfile embs).centroid))) ∧
    (∀ (n : ℕ) (e : List ℝ), n ≠ 0 → sumSq e = 1 →
      (buildPersonProfile (List.replicate n e)).maxIntraDistance = 0 ∧
      (buildPersonProfile (List.replicate n e)).minIntraSimilarity = 1) := by
  constructor
  · intro embs hne
    obtain ⟨e0, t, rfl⟩ := List.exists_cons_of_ne_nil hne
    set c := (buildPersonProfile (e0 :: t)).centroid with hc
    refine ⟨rfl, ?_, ?_, ?_, ?_⟩
    · intro e he
      rw [buildPersonProfile_maxIntraDistance]
      exact mem_le_foldl_max (fun e => euclideanDistance e c) (e0 :: t) 0 e he
    · rcases foldl_max_attained (fun e => euclideanDistance e c) (e0 :: t) 0
        with h0 | ⟨x, hx, h⟩
      · have hb := mem_le_foldl_max (fun e => euclideanDistance e c)
          (e0 :: t) 0 e0 (List.mem_cons_self e0 t)
        rw [h0] at hb
        have hz : euclideanDistance e0 c = 0 :=
          le_antisymm hb (euclideanDistance_nonneg _ _)
        exact ⟨e0, List.mem_cons_self e0 t,
          by rw [buildPersonProfile_maxIntraDistance, h0, hz]⟩
      · exact ⟨x, hx, by rw [buildPersonProfile_maxIntraDistance, h]⟩
    · intro e he
      rw [buildPersonProfile_minIntraSimilarity]
      exact foldl_min_le_mem (fun e => (↑(cosineSimilarity e c) : WithTop ℝ))
        (e0 :: t) ⊤ e he
    · rcases foldl_min_attained
          (fun e => (↑(cosineSimilarity e c) : WithTop ℝ)) (e0 :: t) ⊤
        with h0 | ⟨x, hx, h⟩
      · have hb := foldl_min_le_mem
          (fun e => (↑(cosineSimilarity e c) : WithTop ℝ)) (e0 :: t) ⊤ e0
          (List.mem_cons_self e0 t)
        rw [h0] at hb
        exact absurd (top_le_iff.mp hb) (by simp)
      · exact ⟨x, hx, by rw [buildPersonProfile_minIntraSimilarity, h]⟩
  · intro n e hn he
    have hcent : (buildPersonProfile (List.replicate n e)).centroid = e := by
      rw [buildPersonProfile_centroid, averageEmbeddings_replicate n hn,
        normalizeEmbedding_of_sumSq_one e he]
    constructor
    · rw [buildPersonProfile_maxIntraDistance, hcent]
      rcases foldl_max_attained (fun x => euclideanDistance x e)
          (List.replicate n e) 0 with h | ⟨x, hx, h⟩
      · rw [h]
      · rw [h, List.eq_of_mem_replicate hx, euclideanDistance_self]
    · rw [buildPersonProfile_minIntraSimilarity, hcent]
      rcases foldl_min_attained
          (fun x => (↑(cosineSimilarity x e) : WithTop ℝ))
          (List.replicate n e) ⊤ with h | ⟨x, hx, h⟩
      · have hb := foldl_min_le_mem
          (fun x => (↑(cosineSimilarity x e) : WithTop ℝ))
          (List.replicate n e) ⊤ e (List.mem_replicate.mpr ⟨hn, rfl⟩)
        rw [h] at hb
        exact absurd (top_le_iff.mp hb) (by simp)
      · rw [h, List.eq_of_mem_replicate hx, cosineSimilarity_self, he]
        exact WithTop.coe_one

/-- Witness for C3: the profile over the single unit vector [1] attains
its dispersion statistics, and over one copy of [1] they are 0 and 1. -/
theorem buildPersonProfile_centroid_and_dispersion_witness :
    (∃ e ∈ [[(1 : ℝ)]],
      (buildPersonProfile [[(1 : ℝ)]]).maxIntraDistance =
        euclideanDistance e (buildPersonProfile [[(1 : ℝ)]]).centroid) ∧
      (buildPersonProfile (List.replicate 1 [(1 : ℝ)])).maxIntraDistance = 0 ∧
      (buildPersonProfile (List.replicate 1 [(1 : ℝ)])).minIntraSimilarity = 1 :=
  ⟨(buildPersonProfile_centroid_and_dispersion.1 [[(1 : ℝ)]]
      (by simp)).2.2.1,
    buildPersonProfile_centroid_and_dispersion.2 1 [(1 : ℝ)] one_ne_zero
      (by simp [sumSq])⟩

/-! ### Claims C2 and C1: the pairwise sweep and the match gate -/

lemma buildPersonProfile_embeddings (embs : List (List ℝ)) :
    (buildPersonProfile embs).embeddings = embs := rfl

lemma matchReport_isMatch (D C R : ℝ) (q : List (List ℝ)) (p : PersonProfile) :
    (matchReport D C R q p).isMatch =
      ((runSweep D C q p.embeddings).minDistance ≤ (D : WithTop ℝ) ∧
        (C : WithBot ℝ) ≤ (runSweep D C q p.embeddings).maxSimilarity ∧
        R ≤ ((runSweep D C q p.embeddings).variantMatches : ℝ)) := rfl

/-- Claim C2: after the pairwise sweep, minDistance is a lower bound on
and attained by the Euclidean distances of the (stored, query) pairs,
maxSimilarity is an upper bound on and attained by their cosine
similarities, and variantMatches counts exactly the pairs on which the
distance and similarity thresholds hold jointly. -/
theorem sweep_min_max_and_conjunctive_count (D C : ℝ)
    (query stored : List (List ℝ)) :
    (∀ p ∈ pairList query stored,
      (runSweep D C query stored).minDistance ≤
        ↑(euclideanDistance p.1 p.2)) ∧
    (pairList query stored ≠ [] →
      ∃ p ∈ pairList query stored,
        (runSweep D C query stored).minDistance =
          ↑(euclideanDistance p.1 p.2)) ∧
    (∀ p ∈ pairList query stored,
      ↑(cosineSimilarity p.1 p.2) ≤
        (runSweep D C query stored).maxSimilarity) ∧
    (pairList query stored ≠ [] →
      ∃ p ∈ pairList query stored,
        (runSweep D C query stored).maxSimilarity =
          ↑(cosineSimilarity p.1 p.2)) ∧
    (runSweep D C query stored).variantMatches =
      ((pairList query stored).map fun p =>
        if euclideanDistance p.1 p.2 ≤ D ∧ C ≤ cosineSimilarity p.1 p.2
        then 1 else 0).sum := by
  refine ⟨?_, ?_, ?_, ?_, runSweep_variantMatches D C query stored⟩
  · intro p hp
    rw [runSweep_minDistance]
    exact foldl_min_le_mem _ (pairList query stored) ⊤ p hp
  · intro hne
    rcases foldl_min_attained
        (fun p => (↑(euclideanDistance p.1 p.2) : WithTop ℝ))
        (pairList query stored) ⊤ with h | ⟨p, hp, h⟩
    · obtain ⟨p0, t, heq⟩ := List.exists_cons_of_ne_nil hne
      have hb := foldl_min_le_mem
        (fun p => (↑(euclideanDistance p.1 p.2) : WithTop ℝ))
        (pairList query stored) ⊤ p0 (by rw [heq]; exact List.mem_cons_self p0 t)
      rw [h] at hb
      exact absurd (top_le_iff.mp hb) (by simp)
    · exact ⟨p, hp, by rw [runSweep_minDistance, h]⟩
  · intro p hp
    have hb := mem_le_foldl_max
      (fun p => (↑(cosineSimilarity p.1 p.2) : WithBot ℝ))
      (pairList query stored) ⊥ p hp
    rw [runSweep_maxSimilarity]
    exact hb
  · intro hne
    rcases foldl_max_attained
        (fun p => (↑(cosineSimilarity p.1 p.2) : WithBot ℝ))
        (pairList query stored) ⊥ with h | ⟨p, hp, h⟩
    · obtain ⟨p0, t, heq⟩ := List.exists_cons_of_ne_nil hne
      have hb := mem_le_foldl_max
        (fun p => (↑(cosineSimilarity p.1 p.2) : WithBot ℝ))
        (pairList query stored) ⊥ p0 (by rw [heq]; exact List.mem_cons_self p0 t)
      rw [h] at hb
      exact absurd (le_bot_iff.mp hb) (by simp)
    · exact ⟨p, hp, by rw [runSweep_maxSimilarity, h]⟩

/-- Witness for C2 on the one-pair sweep of query [[0]] against the
stored embedding [[1]]. -/
theorem sweep_min_max_and_conjunctive_count_witness :
    (∃ p ∈ pairList [[(0 : ℝ)]] [[(1 : ℝ)]],
      (runSweep 1 0 [[(0 : ℝ)]] [[(1 : ℝ)]]).minDistance =
        ↑(euclideanDistance p.1 p.2)) ∧
    (∃ p ∈ pairList [[(0 : ℝ)]] [[(1 : ℝ)]],
      (runSweep 1 0 [[(0 : ℝ)]] [[(1 : ℝ)]]).maxSimilarity =
        ↑(cosineSimilarity p.1 p.2)) :=
  ⟨(sweep_min_max_and_conjunctive_count 1 0 [[(0 : ℝ)]] [[(1 : ℝ)]]).2.1
      (by simp [pairList]),
    (sweep_min_max_and_conjunctive_count 1 0 [[(0 : ℝ)]] [[(1 : ℝ)]]).2.2.2.1
      (by simp [pairList])⟩

/-- Claim C1: the final isMatch of the find endpoint holds exactly when
the sweep minDistance is at most DISTANCE_THRESHOLD, the sweep
maxSimilarity is at least COSINE_THRESHOLD, and the variant-match count
reaches REQUIRED_VARIANT_MATCHES; and with a zero distance threshold and a
query all of whose variants differ from every stored variant (of matching
length), isMatch is false whatever the similarities are. -/
theorem find_isMatch_gating (D C R : ℝ) (query : List (List ℝ))
    (profile : PersonProfile) :
    ((matchReport D C R query profile).isMatch ↔
      ((matchReport D C R query profile).minDistance ≤ (D : WithTop ℝ) ∧
        (C : WithBot ℝ) ≤ (matchReport D C R query profile).maxSimilarity ∧
        R ≤ ((matchReport D C R query profile).variantMatches : ℝ))) ∧
    (D = 0 →
      (∀ q ∈ query, ∀ s ∈ profile.embeddings, s.length = q.length ∧ s ≠ q) →
      ¬(matchReport D C R query profile).isMatch) := by
  constructor
  · exact Iff.rfl
  · intro hD hqs hm
    rw [matchReport_isMatch] at hm
    have hmin := hm.1
    rw [runSweep_minDistance, hD] at hmin
    rcases foldl_min_attained
        (fun p => (↑(euclideanDistance p.1 p.2) : WithTop ℝ))
        (pairList query profile.embeddings) ⊤ with h | ⟨p, hp, h⟩
    · rw [h] at hmin
      exact absurd (top_le_iff.mp hmin) (by simp)
    · rw [h] at hmin
      have hmem := mem_pairList.mp hp
      obtain ⟨hlen, hne⟩ := hqs p.2 hmem.1 p.1 hmem.2
      have hpos := euclideanDistance_pos_of_ne p.1 p.2 hlen hne
      rw [WithTop.coe_le_coe] at hmin
      exact absurd hmin (not_le.mpr hpos)

/-- Witness for C1: with a zero distance threshold, querying [[0]] against
the stored profile built from [[1]] does not match. -/
theorem find_isMatch_gating_witness :
    ¬(matchReport 0 0 1 [[(0 : ℝ)]]
        (buildPersonProfile [[(1 : ℝ)]])).isMatch :=
  (find_isMatch_gating 0 0 1 [[(0 : ℝ)]] (buildPersonProfile [[(1 : ℝ)]])).2
    rfl
    (by
      intro q hq s hs
      rw [buildPersonProfile_embeddings] at hs
      simp only [List.mem_singleton] at hq hs
      subst hq
      subst hs
      exact ⟨rfl, by simp⟩)

/-! ### Claim C6: the centroid comparison -/

/-- Claim C6: the centroid figures of the find endpoint are computed
between the stored centroid and the first query variant only, so they are
unchanged when the later query variants change, and the centroid fields of
the profile have no influence on isMatch: two profiles with the same
stored embeddings but different centroids produce the same decision. -/
theorem centroid_first_variant_only_not_gating (D C R : ℝ) :
    (∀ (query : List (List ℝ)) (p₁ p₂ : PersonProfile),
      p₁.embeddings = p₂.embeddings →
      ((matchReport D C R query p₁).isMatch ↔
        (matchReport D C R query p₂).isMatch)) ∧
    (∀ (q0 : List ℝ) (rest₁ rest₂ : List (List ℝ)) (p : PersonProfile),
      (matchReport D C R (q0 :: rest₁) p).centroidDistance =
          euclideanDistance p.centroid q0 ∧
      (matchReport D C R (q0 :: rest₁) p).centroidSimilarity =
          cosineSimilarity p.centroid q0 ∧
      (matchReport D C R (q0 :: rest₁) p).centroidDistance =
        (matchReport D C R (q0 :: rest₂) p).centroidDistance ∧
      (matchReport D C R (q0 :: rest₁) p).centroidSimilarity =
        (matchReport D C R (q0 :: rest₂) p).centroidSimilarity) := by
  constructor
  · intro query p₁ p₂ h
    rw [matchReport_isMatch, matchReport_isMatch, h]
  · intro q0 rest₁ rest₂ p
    exact ⟨rfl, rfl, rfl, rfl⟩

/-- Witness for C6: replacing the centroid of the profile built from [[1]]
by the zero vector leaves the decision on query [[0]] unchanged. -/
theorem centroid_first_variant_only_not_gating_witness :
    (matchReport 0 0 1 [[(0 : ℝ)]] (buildPersonProfile [[(1 : ℝ)]])).isMatch ↔
      (matchReport 0 0 1 [[(0 : ℝ)]]
        ⟨[[(1 : ℝ)]], [0], 5, ⊤⟩).isMatch :=
  (centroid_first_variant_only_not_gating 0 0 1).1 [[(0 : ℝ)]]
    (buildPersonProfile [[(1 : ℝ)]]) ⟨[[(1 : ℝ)]], [0], 5, ⊤⟩ rfl

/-! ### Claims C7 and C8: endpoint guards -/

/-- Claim C7: a verification request for a name with no stored profile
yields the distinct notRegistered outcome, which is a different
constructor from both the validation errors and the computed match
reports, so no distance, similarity or count field exists on it. -/
theorem find_unregistered_distinct_outcome :
    (∀ (embedOf : Img → Region → List ℝ) (D C R : ℝ) (name : Option String)
        (img : Img) (store : String → Option PersonProfile),
      name.getD "" ≠ "" → store (name.getD "") = none →
      findEndpoint embedOf D C R name (some img) store =
        FindOutcome.notRegistered) ∧
    (∀ msg : String,
      (FindOutcome.notRegistered : FindOutcome) ≠
        FindOutcome.validationError msg) ∧
    (∀ rep : MatchReport,
      (FindOutcome.notRegistered : FindOutcome) ≠ FindOutcome.found rep) := by
  refine ⟨?_, ?_, ?_⟩
  · intro embedOf D C R name img store h1 h2
    unfold findEndpoint
    rw [if_neg h1]
    simp only [h2]
  · intro msg h
    exact FindOutcome.noConfusion h
  · intro rep h
    exact FindOutcome.noConfusion h

/-- Witness for C7: asking for bob against the empty store. -/
theorem find_unregistered_distinct_outcome_witness :
    findEndpoint (fun _ _ => []) 0 0 1 (some "bob") (some ⟨none, none⟩)
        (fun _ => none) =
      FindOutcome.notRegistered :=
  find_unregistered_distinct_outcome.1 (fun _ _ => []) 0 0 1 (some "bob")
    ⟨none, none⟩ (fun _ => none) (by decide) rfl

/-- Claim C8: a missing or empty name, or an empty image list, makes
enrollment fail with the corresponding validation error and leaves the
profile store untouched, for every extraction function (so no profile is
built or stored); and a missing name or missing query image makes
verification fail with the corresponding validation error for every
store (so no profile is read). -/
theorem validation_guards_reject_without_state_change :
    (∀ (embedOf : Img → Region → List ℝ) (name : Option String)
        (files : List Img) (store : String → Option PersonProfile),
      name.getD "" = "" →
      registerEndpoint embedOf name files store =
        (RegisterResult.validationError "Name is required", store)) ∧
    (∀ (embedOf : Img → Region → List ℝ) (name : Option String)
        (store : String → Option PersonProfile),
      name.getD "" ≠ "" →
      registerEndpoint embedOf name [] store =
        (RegisterResult.validationError "At least one image required",
          store)) ∧
    (∀ (embedOf : Img → Region → List ℝ) (D C R : ℝ) (name : Option String)
        (file : Option Img) (store : String → Option PersonProfile),
      name.getD "" = "" →
      findEndpoint embedOf D C R name file store =
        FindOutcome.validationError "Name required") ∧
    (∀ (embedOf : Img → Region → List ℝ) (D C R : ℝ) (name : Option String)
        (store : String → Option PersonProfile),
      name.getD "" ≠ "" →
      findEndpoint embedOf D C R name none store =
        FindOutcome.validationError "Image required") := by
  refine ⟨?_, ?_, ?_, ?_⟩
  · intro embedOf name files store h
    unfold registerEndpoint
    rw [if_pos h]
  · intro embedOf name store h
    unfold registerEndpoint
    rw [if_neg h]
    rfl
  · intro embedOf D C R name file store h
    unfold findEndpoint
    rw [if_pos h]
  · intro embedOf D C R name store h
    unfold findEndpoint
    rw [if_neg h]

/-- Witness for C8 at concrete requests against the empty store. -/
theorem validation_guards_reject_without_state_change_witness :
    registerEndpoint (fun _ _ => []) none [⟨none, none⟩] (fun _ => none) =
        (RegisterResult.validationError "Name is required", fun _ => none) ∧
      registerEndpoint (fun _ _ => []) (some "alice") [] (fun _ => none) =
        (RegisterResult.validationError "At least one image required",
          fun _ => none) ∧
      findEndpoint (fun _ _ => []) 0 0 1 none (some ⟨none, none⟩)
          (fun _ => none) =
        FindOutcome.validationError "Name required" ∧
      findEndpoint (fun _ _ => []) 0 0 1 (some "alice") none (fun _ => none) =
        FindOutcome.validationError "Image required" :=
  ⟨validation_guards_reject_without_state_change.1 (fun _ _ => []) none
      [⟨none, none⟩] (fun _ => none) rfl,
    validation_guards_reject_without_state_change.2.1 (fun _ _ => [])
      (some "alice") (fun _ => none) (by decide),
    validation_guards_reject_without_state_change.2.2.1 (fun _ _ => []) 0 0 1
      none (some ⟨none, none⟩) (fun _ => none) rfl,
    validation_guards_reject_without_state_change.2.2.2 (fun _ _ => []) 0 0 1
      (some "alice") (fun _ => none) (by decide)⟩

/-! ### Claims C9 and C10: augmentation and nonemptiness -/

/-- Claim C9: the augmentation sampler returns the normalized embedding of
the full resized image first; it returns exactly one variant when a
metadata dimension is missing and exactly three (full image plus the 0.92
and 0.85 centered crops) when both dimensions are known and positive; and
a successful enrollment reports samplesStored equal to the total number of
variants over all supplied images. -/
theorem augmentation_variant_count_and_samples
    (embedOf : Img → Region → List ℝ) :
    (∀ img : Img,
      (getAugmentedEmbeddings embedOf img).head? =
        some (normalizeEmbedding (embedOf img Region.full))) ∧
    (∀ img : Img, img.width = none ∨ img.height = none →
      (getAugmentedEmbeddings embedOf img).length = 1) ∧
    (∀ (img : Img) (w h : ℕ), img.width = some w → img.height = some h →
      0 < w → 0 < h → (getAugmentedEmbeddings embedOf img).length = 3) ∧
    (∀ (name : Option String) (files : List Img)
        (store : String → Option PersonProfile),
      name.getD "" ≠ "" → files ≠ [] →
      (registerEndpoint embedOf name files store).1.samples =
        some ((files.map fun i =>
          (getAugmentedEmbeddings embedOf i).length).sum)) := by
  refine ⟨?_, ?_, ?_, ?_⟩
  · intro img
    rfl
  · intro img h
    rcases h with h | h
    · simp [getAugmentedEmbeddings, variantsOf, h]
    · simp [getAugmentedEmbeddings, variantsOf, h]
  · intro img w h hw hh hw0 hh0
    rw [getAugmentedEmbeddings, List.length_map, variantsOf, hw, hh]
    rw [if_pos ⟨by simpa using hw0.ne', by simpa using hh0.ne'⟩]
    rfl
  · intro name files store h1 h2
    unfold registerEndpoint
    rw [if_neg h1,
      if_neg (fun hh => h2 (List.isEmpty_iff.mp hh))]
    show (RegisterResult.registered
        (files.flatMap (getAugmentedEmbeddings embedOf)).length _ _).samples =
      _
    rw [RegisterResult.samples, List.length_flatMap]
    rfl

/-- Witness for C9: one image with both dimensions known produces three
variants and an enrollment of it stores three samples; an image with an
unknown width produces one variant. -/
theorem augmentation_variant_count_and_samples_witness :
    (getAugmentedEmbeddings (fun _ _ => []) ⟨some 10, some 10⟩).length = 3 ∧
      (getAugmentedEmbeddings (fun _ _ => []) ⟨none, some 10⟩).length = 1 ∧
      (registerEndpoint (fun _ _ => []) (some "alice") [⟨some 10, some 10⟩]
          (fun _ => none)).1.samples =
        some (([⟨some 10, some 10⟩] : List Img).map (fun i =>
          (getAugmentedEmbeddings (fun _ _ => []) i).length)).sum :=
  ⟨(augmentation_variant_count_and_samples (fun _ _ => [])).2.2.1
      ⟨some 10, some 10⟩ 10 10 rfl rfl (by decide) (by decide),
    (augmentation_variant_count_and_samples (fun _ _ => [])).2.1
      ⟨none, some 10⟩ (Or.inl rfl),
    (augmentation_variant_count_and_samples (fun _ _ => [])).2.2.2
      (some "alice") [⟨some 10, some 10⟩] (fun _ => none) (by decide)
      (by simp)⟩

/-- Claim C10: the augmentation sampler never returns an empty collection
(the full-image embedding always comes first), so the flattened embedding
collection handed to buildPersonProfile during enrollment of a non-empty
file list is non-empty, and the first query variant read by the centroid
comparison of the find endpoint always exists. -/
theorem aggregated_collections_nonempty (embedOf : Img → Region → List ℝ) :
    (∀ img : Img, getAugmentedEmbeddings embedOf img ≠ []) ∧
    (∀ files : List Img, files ≠ [] →
      files.flatMap (getAugmentedEmbeddings embedOf) ≠ []) ∧
    (∀ img : Img,
      (getAugmentedEmbeddings embedOf img).head?.isSome = true) := by
  have hne : ∀ img : Img, getAugmentedEmbeddings embedOf img ≠ [] := by
    intro img
    simp [getAugmentedEmbeddings, variantsOf]
  refine ⟨hne, ?_, ?_⟩
  · intro files h
    obtain ⟨i, t, rfl⟩ := List.exists_cons_of_ne_nil h
    obtain ⟨x, xs, hx⟩ := List.exists_cons_of_ne_nil (hne i)
    rw [List.flatMap_cons, hx]
    simp
  · intro img
    obtain ⟨x, xs, hx⟩ := List.exists_cons_of_ne_nil (hne img)
    rw [hx]
    rfl

/-- Witness for C10: the flattened embeddings of a single dimensionless
image are non-empty. -/
theorem aggregated_collections_nonempty_witness :
    ([⟨none, none⟩] : List Img).flatMap
        (getAugmentedEmbeddings (fun _ _ => [])) ≠ [] :=
  (aggregated_collections_nonempty (fun _ _ => [])).2.1
    [⟨none, none⟩] (by simp)
